import Mathlib

/-!
Verification development for the intrinsically-motivated concept-formation
trainer (`src/SMMain.py`).

The development is a shallow embedding of `SMMain.py`.  The physics
environment (`SMEnv`/box2dsim), the learned representation model
(`SMController`) and the agent (`SMAgent`) are external collaborators of the
repository; they are modelled as oracle parameters (plain function arguments)
so every theorem quantifies over their behaviour.  The configuration module
`params` is modelled as an explicit record of parameters.  Machine floats are
idealised as `Int`/`Rat` values; feature vectors are collapsed to one abstract
value per modality (no claim distinguishes components of one modality).
-/

namespace SMMain

/-! Section: competence/parameter scheduler (`modulate_param`, `Main.train` lines 276-290) -/

/-- Function `modulate_param(base, limit, prop) = base + (limit - base) * prop`,
verbatim from `SMMain.py` line 56-57. -/
def modulate_param (base limit prop : ℚ) : ℚ :=
  base + (limit - base) * prop

/-- The six hyperparameters the scheduler reads from `params`
(`base_match_sigma`, `match_sigma`, `base_internal_sigma`, `internal_sigma`,
`base_lr`, `stm_lr`). -/
structure SchedParams where
  base_match_sigma : ℚ
  match_sigma : ℚ
  base_internal_sigma : ℚ
  internal_sigma : ℚ
  base_lr : ℚ
  stm_lr : ℚ

/-- The competence scheduler, verbatim from `Main.train` lines 276-290:
given mean competence `comp` it sets
`(match_sigma, curr_sigma, curr_lr)` by calling `modulate_param` with
proportion `1 - comp` on the three base/target pairs. -/
def schedule (P : SchedParams) (comp : ℚ) : ℚ × ℚ × ℚ :=
  (modulate_param P.base_match_sigma P.match_sigma (1 - comp),
   modulate_param P.base_internal_sigma P.internal_sigma (1 - comp),
   modulate_param P.base_lr P.stm_lr (1 - comp))

/-! Section: checkpoint restore, log-array resize (`Main.__setstate__` lines 110-116) -/

/-- One row of the `logs` array (`[min, mean, max]` of `batch_log`),
floats idealised as `Int`. -/
abbrev LogRow := Int × Int × Int

/-- The log-array migration in `Main.__setstate__` lines 110-116:
`nlogs = len(self.logs); if params.epochs > nlogs: tmp = np.zeros([epochs,3]);
tmp[:nlogs,:] = self.logs.copy(); self.logs = tmp`.
A fresh zero array of `epochs` rows whose first `nlogs` rows are overwritten
by the saved rows; if the configured epoch count has not grown the array is
left untouched. -/
def setstateLogs (epochs : Nat) (logs : List LogRow) : List LogRow :=
  if logs.length < epochs then
    (List.range epochs).map (fun i => if h : i < logs.length then logs.get ⟨i, h⟩ else (0, 0, 0))
  else logs

/-! Section: control flow of `Main.train` (lines 220-269, 461-462)

Wall-clock readings are abstracted as an oracle `elapsed : Nat → Int` giving
the value of `time.perf_counter() - self.start` observed at the k-th
epoch-boundary check of this invocation (k counts completed loop iterations).
The body of an epoch is irrelevant to the control-flow claims and is elided;
`self.epoch` is advanced exactly as lines 461-462 do. -/

/-- Outcome of a call to `Main.train`: either the `while` loop exits normally
(`completed`) or `TimeLimitsException` is raised (`timeLimits`).  The payload
counts the epochs fully run by this invocation before returning/raising. -/
inductive TrainOutcome where
  | completed : Nat → TrainOutcome
  | timeLimits : Nat → TrainOutcome
deriving DecidableEq, Repr

/-- Epochs run by the invocation before it returned or raised. -/
def TrainOutcome.count : TrainOutcome → Nat
  | .completed k => k
  | .timeLimits k => k

/-- Returns `true` iff the call returned normally (no exception). -/
def TrainOutcome.isCompleted : TrainOutcome → Bool
  | .completed _ => true
  | .timeLimits _ => false

/-- The `while epoch < params.epochs` loop of `Main.train` (lines 264-269,
461-462).  `e` is the current epoch (equal to `self.epoch` at the boundary
check), `k` the number of epochs completed by this invocation.  Each
iteration first checks `epoch < params.epochs`, then raises
`TimeLimitsException` when `elapsed k >= time_limits` and `self.epoch > 0`,
otherwise runs the epoch body and increments the counters.  `fuel` is an
upper bound on the remaining iterations; callers pass `epochs - e`, which is
exact, so the fuel-exhausted branch coincides with normal loop exit. -/
def trainLoop (epochs : Nat) (timeLimits : Int) (elapsed : Nat → Int) :
    Nat → Nat → Nat → TrainOutcome
  | 0, _, k => .completed k
  | fuel + 1, e, k =>
    if e < epochs then
      if timeLimits ≤ elapsed k ∧ 0 < e then .timeLimits k
      else trainLoop epochs timeLimits elapsed fuel (e + 1) (k + 1)
    else .completed k

/-- Entry of `Main.train` (lines 220-269): when called with `self.epoch != 0`
and `self.epoch >= params.epochs - 1` it raises `TimeLimitsException` before
entering the loop; otherwise it runs the epoch loop starting at `e0`.
(The subtraction `params.epochs - 1` is on Python ints; for `epochs = 0` the
Python comparison `e0 >= -1` and the Nat comparison `epochs - 1 <= e0` agree
for every reachable `e0`.) -/
def trainModel (epochs : Nat) (timeLimits : Int) (elapsed : Nat → Int) (e0 : Nat) : TrainOutcome :=
  if e0 ≠ 0 ∧ epochs - 1 ≤ e0 then .timeLimits 0
  else trainLoop epochs timeLimits elapsed (epochs - e0) e0 0

/-! Section: the episode batch runner (`Main.run_episodes`, lines 139-218)

Sensor feature vectors are collapsed to one `Int` per modality; the physics
state returned by `env.step` is an `EnvState` record carrying the fields
`run_episodes` reads (`OBJ_POSITION`, `VISUAL_SENSORS`, `TOUCH_SENSORS`,
`JOINT_POSITIONS`).  `agent.updatePolicy` followed by `agent.step(state)` is
abstracted as one oracle `agentStep policy state`; `env.step` as
`envStep state action` (each episode exclusively owns its environment, so
the environment instance is folded into the state value); the composition of
`controller.spread` and `controller.computeMatchSimple` on the window
buffers as the oracle `matchOf` applied to the current runner state.  The
projection buffers (`v_r` … `g_p`) and the `match_increment` buffers are
pure outputs of those oracle calls that no claim refers to, so they are not
carried in the model state. -/

/-- The relevant `params` entries read by `run_episodes`, `train` and
`is_object_out_of_taskspace` (module `params` is configuration data, not in
`src/`; every theorem quantifies over it). -/
structure SMParams where
  action_steps : Nat
  stime : Nat
  cum_match_stop_th : Int
  match_incr_th : Int
  drop_first_n_steps : Nat
  xlim_lo : Int
  xlim_hi : Int
  ylim_lo : Int
  ylim_hi : Int
  env_reset_freq : Nat

/-- Environment state bundle: the fields of the `state` dict that
`run_episodes`/`train` read.  `obj_x`, `obj_y` are
`state["OBJ_POSITION"][0, 0]`; `visual`, `touch`, `joints` stand for
`VISUAL_SENSORS.ravel()`, `TOUCH_SENSORS` and `JOINT_POSITIONS[:5]`. -/
structure EnvState where
  obj_x : Int
  obj_y : Int
  visual : Int
  touch : Int
  joints : Int
deriving DecidableEq, Repr

/-- Method `Main.is_object_out_of_taskspace` (lines 133-137), verbatim. -/
def is_object_out_of_taskspace (P : SMParams) (st : EnvState) : Bool :=
  decide (st.obj_x < P.xlim_lo ∨ P.xlim_hi < st.obj_x ∨ st.obj_y < P.ylim_lo ∨ P.ylim_hi < st.obj_y)

/-- Pointwise update of a one-index array. -/
def upd1 {α : Type} (f : Nat → α) (i : Nat) (v : α) : Nat → α :=
  fun j => if j = i then v else f j

/-- Pointwise update of a two-index array. -/
def upd2 {α : Type} (f : Nat → Nat → α) (i j : Nat) (v : α) : Nat → Nat → α :=
  fun a b => if a = i ∧ b = j then v else f a b

/-- Class `SensoryMotorCircle` (lines 43-54): step counter `t` and held action. -/
structure SensoryMotorCircle where
  t : Nat
  action : Int
deriving DecidableEq, Repr

/-- State of one call to `run_episodes`.  Arrays are total functions of the
episode index (and time); entries at indices `≥ batch_size` are phantom —
the numpy arrays stop at `batch_size`, and the vectorized window accounting
is modelled over all indices, which harmlessly includes the phantom ones.
`batch_a` holds `batch_a[episode, 0, :]` (the policy
row; in `train` every time slice of `batch_a` holds the same policy).
`smc` is the single `SensoryMotorCircle`: line 157 builds
`[SensoryMotorCircle(params.action_steps)] * batch_size`, which repeats one
object reference `batch_size` times, so all episodes share one counter and
one held action.  `samples` is ghost instrumentation recording the
`(t, episode)` pairs at which `agent.step` was invoked to draw a fresh
action; it is written exactly when the code executes line 50. -/
structure RunState where
  batch_v : Nat → Nat → Int
  batch_ss : Nat → Nat → Int
  batch_p : Nat → Nat → Int
  batch_g : Nat → Nat → Int
  batch_a : Nat → Int
  states : Nat → Option EnvState
  cum_match : Nat → Int
  max_match : Nat → Int
  episode_len : Nat → Nat
  matchFlags : Nat → Nat → Bool
  match_value : Nat → Nat → Int
  smc : SensoryMotorCircle
  samples : List (Nat × Nat)

/-- External collaborators of `run_episodes`: the agent
(`updatePolicy` + `step`), the environment (`step`) and the controller
(`spread` + `computeMatchSimple` on the window buffers, collapsed into
`matchOf state episode time`). -/
structure SMExt where
  agentStep : Int → EnvState → Int
  envStep : EnvState → Int → EnvState
  matchOf : RunState → Nat → Nat → Int

/-- Method `SensoryMotorCircle.step` (lines 48-54): resample the action from the
agent when `t % action_steps == 0`, advance the environment, increment `t`.
The `Bool` result is ghost: whether line 50 (`agent.step`) ran. -/
def SensoryMotorCircle.step (action_steps : Nat) (ext : SMExt) (policy : Int)
    (c : SensoryMotorCircle) (st : EnvState) : SensoryMotorCircle × EnvState × Bool :=
  let resample := c.t % action_steps = 0
  let a := if resample then ext.agentStep policy st else c.action
  (⟨c.t + 1, a⟩, ext.envStep st a, decide resample)

/-- Body of the per-episode loop at lines 160-177 for one episode `e` at
timestep `t`: skip ended episodes (`states[e] is None` or saturated
cumulative match), record `episode_len[e] = t`, advance one simulated step
through the shared `SensoryMotorCircle`, then either terminate the episode
(object out of task space) or store the new state and write this step's
sensor readings at row `e`, column `t`. -/
def stepEpisode (P : SMParams) (ext : SMExt) (t e : Nat) (s : RunState) : RunState :=
  match s.states e with
  | none => s
  | some st =>
    if P.cum_match_stop_th ≤ s.cum_match e then s
    else
      let r := SensoryMotorCircle.step P.action_steps ext (s.batch_a e) s.smc st
      let s1 : RunState :=
        { s with
          episode_len := upd1 s.episode_len e t
          smc := r.1
          samples := if r.2.2 then s.samples ++ [(t, e)] else s.samples }
      if is_object_out_of_taskspace P r.2.1 then
        { s1 with states := upd1 s1.states e none }
      else
        { s1 with
          states := upd1 s1.states e (some r.2.1)
          batch_v := upd2 s1.batch_v e t r.2.1.visual
          batch_ss := upd2 s1.batch_ss e t r.2.1.touch
          batch_p := upd2 s1.batch_p e t r.2.1.joints }

/-- One iteration `i` of the match-event loop at lines 211-215, vectorized
over all episodes exactly as the numpy code is:
`mmask = (match_value[:, i] - max_match) > match_incr_th;
matches[:, i] = mmask; cum_match += mmask;
max_match[mmask] = match_value[mmask, i]`. -/
def matchEventStep (P : SMParams) (i : Nat) (s : RunState) : RunState :=
  { s with
    matchFlags := fun e j =>
      if j = i then decide (P.match_incr_th < s.match_value e i - s.max_match e)
      else s.matchFlags e j
    cum_match := fun e =>
      s.cum_match e + (if P.match_incr_th < s.match_value e i - s.max_match e then 1 else 0)
    max_match := fun e =>
      if P.match_incr_th < s.match_value e i - s.max_match e then s.match_value e i
      else s.max_match e }

/-- Line 216: `cum_match[cum_match > cum_match_stop_th] = cum_match_stop_th`. -/
def clampCum (P : SMParams) (s : RunState) : RunState :=
  { s with cum_match := fun e =>
      if P.cum_match_stop_th < s.cum_match e then P.cum_match_stop_th else s.cum_match e }

/-- The window block at lines 179-216: recompute `match_value[:, t0:t]` for
all episodes from the current buffers, and — when `t > action_steps` and
`t0 > drop_first_n_steps` — run the match-event loop over the window and
clamp the cumulative counter at the stop threshold. -/
def windowAccount (P : SMParams) (ext : SMExt) (t : Nat) (s : RunState) : RunState :=
  let t0 := t - P.action_steps
  let s1 : RunState :=
    { s with match_value := fun e i =>
        if t0 ≤ i ∧ i < t then ext.matchOf s e i else s.match_value e i }
  if P.action_steps < t ∧ P.drop_first_n_steps < t0 then
    clampCum P ((List.range (t - t0)).foldl (fun acc k => matchEventStep P (t0 + k) acc) s1)
  else s1

/-- One iteration of the outer loop `for t in range(1, stime+1)`
(lines 158-216): step every episode in index order while `t < stime`, then
run the window block when `t % action_steps == 0 or t == stime`. -/
def stepT (P : SMParams) (ext : SMExt) (batchSize t : Nat) (s : RunState) : RunState :=
  let s1 :=
    if t < P.stime then (List.range batchSize).foldl (fun acc e => stepEpisode P ext t e acc) s
    else s
  if t % P.action_steps = 0 ∨ t = P.stime then windowAccount P ext t s1 else s1

/-- The first `n` iterations of the outer loop (timesteps `t = 1 … n`).
`runSteps … P.stime` is the full loop; smaller `n` are the observable
intermediate points. -/
def runSteps (P : SMParams) (ext : SMExt) (batchSize : Nat) (s : RunState) (n : Nat) : RunState :=
  (List.range n).foldl (fun acc k => stepT P ext batchSize (k + 1) acc) s

/-- Entry state of `run_episodes` (lines 149-157): caller-owned buffers,
fresh zero `cum_match`, `episode_len`, `max_match`, `matches`, and the
shared `SensoryMotorCircle` with counter 0. -/
def mkRunState (bv bss bp bg : Nat → Nat → Int) (pol : Nat → Int) (mval : Nat → Nat → Int)
    (states : Nat → Option EnvState) : RunState :=
  { batch_v := bv
    batch_ss := bss
    batch_p := bp
    batch_g := bg
    batch_a := pol
    states := states
    cum_match := fun _ => 0
    max_match := fun _ => 0
    episode_len := fun _ => 0
    matchFlags := fun _ _ => false
    match_value := mval
    smc := ⟨0, 0⟩
    samples := [] }

/-- Method `Main.run_episodes` (lines 139-218): run the full outer loop and return
the final state (whose `matches`, `cum_match`, `episode_len` fields are the
function's return values; the buffers are the caller's, mutated in place). -/
def run_episodes (P : SMParams) (ext : SMExt) (batchSize : Nat)
    (bv bss bp bg : Nat → Nat → Int) (pol : Nat → Int) (mval : Nat → Nat → Int)
    (states : Nat → Option EnvState) : RunState :=
  runSteps P ext batchSize (mkRunState bv bss bp bg pol mval states) P.stime

/-! Section: goal/policy resampling across epochs (`Main.train`, lines 300-354)

The per-epoch goal logic of `train`: episode preparation (lines 301-313),
the initial representation and goal resampling (lines 315-339), the batch
run (lines 342-351) and the end-of-epoch mask assignment (line 354).  The
external pieces are oracles: `resetState episode epoch` is the state
returned by `SMEnv(seed + episode + epoch).reset(context)`; `vr0 epoch
states episode` is row `episode` of `v_r[:, 0, :]`, the initial visual
representation `controller.spread` produces from the prepared `t = 0`
buffers; `runStates`/`runCum` are the per-episode final states and
cumulative match counts produced by `run_episodes` (the controller and its
weights evolve with the epoch, hence the epoch argument). -/

/-- External collaborators of the goal-resampling logic of `train`. -/
structure TrainExt where
  resetState : Nat → Nat → EnvState
  vr0 : Nat → (Nat → Option EnvState) → Nat → Int
  runStates : Nat → (Nat → Option EnvState) → (Nat → Int) → Nat → Option EnvState
  runCum : Nat → (Nat → Option EnvState) → (Nat → Int) → Nat → Int

/-- The epoch-persistent goal state of `train`: the local arrays `states`,
`goals`, `reset_goal_mask` (lines 259-262) and the epoch counter. -/
structure TrainState where
  states : Nat → Option EnvState
  goals : Nat → Int
  reset_goal_mask : Nat → Bool
  epoch : Nat

/-- Episode preparation, lines 301-309: an episode is reset when its state
is the terminated sentinel or on the periodic schedule
(`epoch % env_reset_freq == 0`); resetting installs a fresh environment
state and sets that episode's `reset_goal_mask` entry to `True` (entries of
episodes not reset keep their value from line 354 of the previous epoch). -/
def prepareEpisodes (P : SMParams) (ext : TrainExt) (s : TrainState) : TrainState :=
  { s with
    states := fun e =>
      if s.states e = none ∨ s.epoch % P.env_reset_freq = 0
      then some (ext.resetState e s.epoch) else s.states e
    reset_goal_mask := fun e =>
      if s.states e = none ∨ s.epoch % P.env_reset_freq = 0
      then true else s.reset_goal_mask e }

/-- Line 328: `goals[reset_goal_mask] = v_r[reset_goal_mask, 0, :]` — the
goals used for the coming batch run: masked episodes receive their own
initial visual representation, the rest keep their previous goal. -/
def goalsAfterSample (ext : TrainExt) (s : TrainState) : Nat → Int :=
  fun e => if s.reset_goal_mask e then ext.vr0 s.epoch s.states e else s.goals e

/-- The cumulative match counts `run_episodes` returns for the epoch that
starts from goal state `s` (used both inside `epochStepG` and to state the
cross-epoch claim). -/
def epochCum (P : SMParams) (ext : TrainExt) (s : TrainState) : Nat → Int :=
  fun e =>
    ext.runCum (prepareEpisodes P ext s).epoch (prepareEpisodes P ext s).states
      (goalsAfterSample ext (prepareEpisodes P ext s)) e

/-- One epoch of `train`'s goal logic (lines 300-354 followed by the
increment at lines 461-462): prepare episodes, resample masked goals, run
the batch, then line 354 `reset_goal_mask = cum_match >= cum_match_stop_th`
(a plain assignment overwriting the mask). -/
def epochStepG (P : SMParams) (ext : TrainExt) (s : TrainState) : TrainState :=
  { states := fun e =>
      ext.runStates (prepareEpisodes P ext s).epoch (prepareEpisodes P ext s).states
        (goalsAfterSample ext (prepareEpisodes P ext s)) e
    goals := goalsAfterSample ext (prepareEpisodes P ext s)
    reset_goal_mask := fun e => decide (P.cum_match_stop_th ≤ epochCum P ext s e)
    epoch := s.epoch + 1 }

/-! Section: checkpoint/resume (`Main.__getstate__`/`__setstate__`/`train`)

`__getstate__` (lines 90-99) pickles exactly `controller`, `env`, `rng`,
`seed`, `plots`, `logs`, `epoch`.  The model keeps the controller weights as
an abstract `Nat`, the numpy RNG as its position counter (one batch of draws
is consumed per epoch by `getPoliciesFromRepresentationsWithNoise`), the
`logs` rows and the epoch counter.  The update performed at epoch `e` —
`controller.update(batch …)` at lines 358-369 — is abstracted by its input:
the pair (weights entering the epoch, RNG position entering the epoch),
since the trajectory batch is a deterministic function of those through the
sampled policies.  The pickle at line 437 happens after the update and the
RNG draws of the epoch but before lines 461-462 increment `self.epoch`, so
the stored `epoch` field is the epoch just run.  `__setstate__`
(lines 101-131) restores the pickled fields verbatim (numpy RNG exactly at
its saved position) and resizes `logs`; it does not (and cannot) restore
the torch RNG position (line 107 reseeds from the initial seed) nor the
train-local per-episode environments and goals, which are not in the pickle
at all — additional divergence sources the counterexample does not need. -/

/-- The `params` entries the checkpoint model reads. -/
structure CkptParams where
  epochs : Nat
  epochs_to_test : Nat

/-- The pickled trainer state (the `__getstate__` dict, external
collaborators abstracted; `seed` and `plots` are constants that play no
role and are omitted). -/
structure MainSt where
  controller : Nat
  rng_pos : Nat
  logs : List LogRow
  epoch : Nat
deriving DecidableEq, Repr

/-- External collaborators of the epoch body: the controller update
(new weights from weights and RNG position) and the row written to
`logs[epoch]` (lines 385-389). -/
structure CkptExt where
  updController : Nat → Nat → Nat
  logRow : Nat → Nat → LogRow

/-- The trace of one `train` invocation: final state, the inputs of the
`controller.update` calls as `(epoch, weights, rng position)`, and the
checkpoints taken as `(epoch, pickled state)`. -/
structure EpochTrace where
  final : MainSt
  updates : List (Nat × Nat × Nat)
  snaps : List (Nat × MainSt)

/-- The checkpoint condition at lines 431-433:
`(epoch > 0 and epoch % epochs_to_test == 0) or epoch == epochs - 1`. -/
def ckptCond (P : CkptParams) (e : Nat) : Bool :=
  (decide (0 < e) && decide (e % P.epochs_to_test = 0)) || decide (e = P.epochs - 1)

/-- One epoch body of `train` (persistent-state view): draw policies
(consuming one RNG batch, line 331), run the batch, update the controller
(lines 358-369), write `logs[epoch]` (line 385), then advance the epoch
counter (lines 461-462). -/
def epochBody (ext : CkptExt) (s : MainSt) : MainSt :=
  { controller := ext.updController s.controller s.rng_pos
    rng_pos := s.rng_pos + 1
    logs := s.logs.set s.epoch (ext.logRow s.controller s.rng_pos)
    epoch := s.epoch + 1 }

/-- The `while epoch < params.epochs` loop of `train`, recording update
inputs and checkpoints.  The pickled state at a checkpointing epoch is the
post-body state with the `epoch` field still at the epoch just run
(the `np.save` at line 437 precedes the increment at lines 461-462).
`fuel` is exact for callers passing `epochs - epoch` (time limits are not
modelled here: the run is assumed within budget). -/
def runC (P : CkptParams) (ext : CkptExt) : Nat → MainSt → EpochTrace
  | 0, s => ⟨s, [], []⟩
  | fuel + 1, s =>
    if s.epoch < P.epochs then
      let s' := epochBody ext s
      let rest := runC P ext fuel s'
      { final := rest.final
        updates := (s.epoch, s.controller, s.rng_pos) :: rest.updates
        snaps :=
          (if ckptCond P s.epoch then [(s.epoch, { s' with epoch := s.epoch })] else [])
            ++ rest.snaps }
    else ⟨s, [], []⟩

/-- Run `Main.train` from a given persistent state (checkpoint view). -/
def trainC (P : CkptParams) (ext : CkptExt) (s : MainSt) : EpochTrace :=
  runC P ext (P.epochs - s.epoch) s

/-- Method `Main.__setstate__` restricted to the modelled fields: every field is
restored verbatim; `logs` goes through the resize of lines 110-116. -/
def setstateC (P : CkptParams) (σ : MainSt) : MainSt :=
  { σ with logs := setstateLogs P.epochs σ.logs }

/-! Section: concrete instances used by witnesses and counterexamples -/

/-- All-zero caller buffer. -/
def zeroBuf : Nat → Nat → Int := fun _ _ => 0

/-- Zero policy rows. -/
def zeroPol : Nat → Int := fun _ => 0

/-- An in-taskspace environment state. -/
def inState : EnvState := ⟨0, 0, 0, 0, 0⟩

/-- Every episode alive in `inState`. -/
def liveStates : Nat → Option EnvState := fun _ => some inState

/-- Small concrete configuration: action period 2, horizon 4, stop
threshold 5, match-increment margin 0, no settle period, task space
`[-10, 10]²`. -/
def cexParams : SMParams :=
  { action_steps := 2, stime := 4, cum_match_stop_th := 5, match_incr_th := 0,
    drop_first_n_steps := 0, xlim_lo := -10, xlim_hi := 10, ylim_lo := -10, ylim_hi := 10,
    env_reset_freq := 1 }

/-- Oracles for the shared-`SensoryMotorCircle` counterexample: the agent
returns the policy value as the action, the environment records the action
in the visual field and keeps the object inside the task space. -/
def cexExtC2 : SMExt :=
  { agentStep := fun policy _ => policy
    envStep := fun st a => { st with visual := a }
    matchOf := fun _ _ _ => 0 }

/-- Distinct policies per episode: episode `e` holds policy `10 * (e+1)`. -/
def cexPol : Nat → Int := fun e => 10 * ((e : Int) + 1)

/-- Oracles for the terminated-episode counterexamples: the first
environment step pushes the object out of the task space; the match oracle
returns the timestep index, so every accounted step is a match event. -/
def cexExtC5 : SMExt :=
  { agentStep := fun _ _ => 0
    envStep := fun st _ => { st with obj_x := 100 }
    matchOf := fun _ _ i => (i : Int) }

/-- Initial runner state shared by the concrete episode-runner scenarios. -/
def init0 : RunState := mkRunState zeroBuf zeroBuf zeroBuf zeroBuf zeroPol zeroBuf liveStates

/-- Constant-zero elapsed-time oracle (the budget is never approached). -/
def zeroElapsed : Nat → Int := fun _ => 0

/-- A 100-row log array with pairwise distinct rows. -/
def demoLogs : List LogRow := (List.range 100).map (fun i => ((i : Int), 0, 0))

/-- Concrete scheduler parameters for the scheduler witness. -/
def schedP : SchedParams :=
  { base_match_sigma := 1, match_sigma := 3, base_internal_sigma := 2, internal_sigma := 6,
    base_lr := 1, stm_lr := 5 }

/-- Checkpointing configuration for the resume counterexample: 3 epochs,
checkpoint every epoch. -/
def c1Params : CkptParams := ⟨3, 1⟩

/-- Controller oracle whose update increments the weights (any update that
actually changes the weights exhibits the divergence). -/
def c1Ext : CkptExt := { updController := fun c _ => c + 1, logRow := fun _ _ => (1, 1, 1) }

/-- Fresh trainer: weights 0, RNG at position 0, zeroed logs, epoch 0. -/
def c1Init : MainSt := { controller := 0, rng_pos := 0, logs := List.replicate 3 (0, 0, 0), epoch := 0 }

/-- The checkpoint taken at epoch 1 of the uninterrupted run. -/
def c1Snap : MainSt := (((trainC c1Params c1Ext c1Init).snaps.lookup 1).getD c1Init)

/-- The uninterrupted run through all 3 epochs. -/
def c1Uninterrupted : EpochTrace := trainC c1Params c1Ext c1Init

/-- The run resumed from the epoch-1 checkpoint via `__setstate__`. -/
def c1Resumed : EpochTrace := trainC c1Params c1Ext (setstateC c1Params c1Snap)

/-! Section: theorems -/

/-- A property preserved by each fold step is preserved by the fold. -/
theorem foldl_invariant {α β : Type} (f : α → β → α) (Q : α → Prop)
    (h : ∀ s b, Q s → Q (f s b)) : ∀ (l : List β) (s : α), Q s → Q (l.foldl f s) := by
  intro l
  induction l with
  | nil => intro s hs; exact hs
  | cons b tl ih => intro s hs; exact ih (f s b) (h s b hs)

/-- Member-restricted fold invariant. -/
theorem foldl_invariant_mem {α β : Type} (f : α → β → α) (Q : α → Prop) :
    ∀ l : List β, (∀ s b, b ∈ l → Q s → Q (f s b)) → ∀ s : α, Q s → Q (l.foldl f s) := by
  intro l
  induction l with
  | nil => intro _ s hs; exact hs
  | cons b tl ih =>
    intro h s hs
    exact ih (fun u c hc hq => h u c (List.mem_cons_of_mem _ hc) hq) (f s b)
      (h s b (List.mem_cons_self _ _) hs)

/-- Claim C8: on restore, if `params.epochs` exceeds the number of
checkpointed log rows, the log array is resized non-destructively — the
result has `params.epochs` rows, the saved rows are preserved verbatim and
the new rows are zero; if the total has not grown, the log array is
unchanged. -/
theorem setstate_logs_resize (epochs : Nat) (logs : List LogRow) :
    (logs.length < epochs →
      (setstateLogs epochs logs).length = epochs ∧
      (∀ i, i < logs.length → (setstateLogs epochs logs).get? i = logs.get? i) ∧
      (∀ i, logs.length ≤ i → i < epochs → (setstateLogs epochs logs).get? i = some (0, 0, 0)))
    ∧ (epochs ≤ logs.length → setstateLogs epochs logs = logs) := by
  constructor
  · intro h
    refine ⟨?_, ?_, ?_⟩
    · simp [setstateLogs, if_pos h]
    · intro i hi
      have hie : i < epochs := hi.trans h
      simp only [setstateLogs, if_pos h]
      rw [List.get?_map, List.get?_range hie]
      simp only [Option.map_some', dif_pos hi]
      exact (List.get?_eq_get hi).symm
    · intro i h1 h2
      simp only [setstateLogs, if_pos h]
      rw [List.get?_map, List.get?_range h2]
      simp [dif_neg (not_lt.mpr h1)]
  · intro h
    simp [setstateLogs, not_lt.mpr h]

/-- Witness for C8: growing the total from 100 to 200 rows preserves row 99
verbatim and zero-fills row 150. -/
theorem setstate_logs_resize_witness :
    (setstateLogs 200 demoLogs).length = 200 ∧
    (setstateLogs 200 demoLogs).get? 99 = some (99, 0, 0) ∧
    (setstateLogs 200 demoLogs).get? 150 = some (0, 0, 0) := by
  have hd : demoLogs.length = 100 := by decide
  have hlen : demoLogs.length < 200 := by omega
  obtain ⟨h1, h2, h3⟩ := (setstate_logs_resize 200 demoLogs).1 hlen
  refine ⟨h1, ?_, h3 150 (by omega) (by norm_num)⟩
  rw [h2 99 (by omega)]
  decide

/-- Claim C9: the competence scheduler is a pure total function, each
component equal to `base + (target - base) * (1 - c)`; `c = 1` gives the
base extremes, `c = 0` the target extremes, and each component is affine
and monotone in the competence argument. -/
theorem schedule_spec (P : SchedParams) :
    (∀ c : ℚ, schedule P c =
      (P.base_match_sigma + (P.match_sigma - P.base_match_sigma) * (1 - c),
       P.base_internal_sigma + (P.internal_sigma - P.base_internal_sigma) * (1 - c),
       P.base_lr + (P.stm_lr - P.base_lr) * (1 - c)))
    ∧ schedule P 1 = (P.base_match_sigma, P.base_internal_sigma, P.base_lr)
    ∧ schedule P 0 = (P.match_sigma, P.internal_sigma, P.stm_lr)
    ∧ (∀ w c₁ c₂ : ℚ,
        (schedule P (w * c₁ + (1 - w) * c₂)).1
            = w * (schedule P c₁).1 + (1 - w) * (schedule P c₂).1 ∧
        (schedule P (w * c₁ + (1 - w) * c₂)).2.1
            = w * (schedule P c₁).2.1 + (1 - w) * (schedule P c₂).2.1 ∧
        (schedule P (w * c₁ + (1 - w) * c₂)).2.2
            = w * (schedule P c₁).2.2 + (1 - w) * (schedule P c₂).2.2)
    ∧ (∀ c₁ c₂ : ℚ, c₁ ≤ c₂ →
        (P.base_match_sigma ≤ P.match_sigma → (schedule P c₂).1 ≤ (schedule P c₁).1) ∧
        (P.match_sigma ≤ P.base_match_sigma → (schedule P c₁).1 ≤ (schedule P c₂).1) ∧
        (P.base_internal_sigma ≤ P.internal_sigma → (schedule P c₂).2.1 ≤ (schedule P c₁).2.1) ∧
        (P.internal_sigma ≤ P.base_internal_sigma → (schedule P c₁).2.1 ≤ (schedule P c₂).2.1) ∧
        (P.base_lr ≤ P.stm_lr → (schedule P c₂).2.2 ≤ (schedule P c₁).2.2) ∧
        (P.stm_lr ≤ P.base_lr → (schedule P c₁).2.2 ≤ (schedule P c₂).2.2)) := by
  refine ⟨fun c => rfl, ?_, ?_, ?_, ?_⟩
  · simp only [schedule, modulate_param, Prod.mk.injEq]
    refine ⟨by ring, by ring, by ring⟩
  · simp only [schedule, modulate_param, Prod.mk.injEq]
    refine ⟨by ring, by ring, by ring⟩
  · intro w c₁ c₂
    refine ⟨?_, ?_, ?_⟩ <;> simp only [schedule, modulate_param] <;> ring
  · intro c₁ c₂ h
    have h1 : 1 - c₂ ≤ 1 - c₁ := by linarith
    refine ⟨fun hb => ?_, fun hb => ?_, fun hb => ?_, fun hb => ?_, fun hb => ?_, fun hb => ?_⟩ <;>
      simp only [schedule, modulate_param] <;> nlinarith [h1, hb]

/-- Witness for C9: at the concrete parameters `schedP`, `c = 1` yields the
base extremes and the first component is antitone (base 1 ≤ target 3). -/
theorem schedule_spec_witness :
    schedule schedP 1 = (1, 2, 1) ∧ (schedule schedP 1).1 ≤ (schedule schedP 0).1 := by
  constructor
  · rw [(schedule_spec schedP).2.1]; rfl
  · exact ((schedule_spec schedP).2.2.2.2 0 1 (by norm_num)).1 (by norm_num [schedP])

/-- The epoch loop returns normally iff no boundary check with a positive
current epoch finds the elapsed time at or past the budget. -/
theorem trainLoop_isCompleted_iff (epochs : Nat) (T : Int) (elapsed : Nat → Int) :
    ∀ (fuel e k : Nat), epochs ≤ e + fuel →
      ((trainLoop epochs T elapsed fuel e k).isCompleted = true ↔
        ∀ j, e + j < epochs → ¬(T ≤ elapsed (k + j) ∧ 0 < e + j)) := by
  intro fuel
  induction fuel with
  | zero =>
    intro e k hf
    simp only [trainLoop, TrainOutcome.isCompleted]
    constructor
    · intro _ j hj _; omega
    · intro _; trivial
  | succ fuel ih =>
    intro e k hf
    simp only [trainLoop]
    by_cases he : e < epochs
    · rw [if_pos he]
      by_cases hc : T ≤ elapsed k ∧ 0 < e
      · rw [if_pos hc]
        simp only [TrainOutcome.isCompleted]
        constructor
        · intro hfalse; exact absurd hfalse (by simp)
        · intro hall; exact absurd hc (hall 0 (by omega))
      · rw [if_neg hc]
        rw [ih (e + 1) (k + 1) (by omega)]
        constructor
        · intro H j hj
          cases j with
          | zero => exact hc
          | succ j' =>
            intro hx
            exact H j' (by omega)
              ⟨by rw [show k + 1 + j' = k + (j' + 1) by omega]; exact hx.1, by omega⟩
        · intro G j hj
          intro hx
          exact G (j + 1) (by omega)
            ⟨by rw [show k + (j + 1) = k + 1 + j by omega]; exact hx.1, by omega⟩
    · rw [if_neg he]
      simp only [TrainOutcome.isCompleted]
      constructor
      · intro _ j hj _; omega
      · intro _; trivial

/-- The per-invocation epoch counter in the outcome payload never
decreases below its starting value. -/
theorem trainLoop_count_le (epochs : Nat) (T : Int) (elapsed : Nat → Int) :
    ∀ (fuel e k : Nat), k ≤ (trainLoop epochs T elapsed fuel e k).count := by
  intro fuel
  induction fuel with
  | zero => intro e k; simp [trainLoop, TrainOutcome.count]
  | succ fuel ih =>
    intro e k
    simp only [trainLoop]
    by_cases he : e < epochs
    · rw [if_pos he]
      by_cases hc : T ≤ elapsed k ∧ 0 < e
      · rw [if_pos hc]; simp [TrainOutcome.count]
      · rw [if_neg hc]; exact le_trans (Nat.le_succ k) (ih (e + 1) (k + 1))
    · rw [if_neg he]; simp [TrainOutcome.count]

/-- Counterexample to C6: restoring at epoch 1 with `params.epochs = 2` and
a 100-unit budget that is never approached (elapsed time constantly 0),
`train` raises `TimeLimitsException` before running any epoch — refuting
both "raises iff elapsed wall-clock time exceeds the budget" and "every
invocation makes at least one epoch of progress". -/
theorem train_raises_within_budget_cex :
    trainModel 2 100 zeroElapsed 1 = .timeLimits 0 ∧
    (trainModel 2 100 zeroElapsed 1).count = 0 ∧
    zeroElapsed 0 < 100 := by
  decide

/-- Claim C6 (amended): `train` returns normally iff the pre-loop restored-
at-finished check does not fire and no boundary check with at least one
epoch previously completed finds elapsed time at or past the budget; and an
invocation starting at epoch 0 always completes at least epoch 0, even when
the budget is already exceeded. -/
theorem train_outcome_characterization (epochs : Nat) (T : Int) (elapsed : Nat → Int) (e0 : Nat) :
    ((trainModel epochs T elapsed e0).isCompleted = true ↔
      (¬(e0 ≠ 0 ∧ epochs - 1 ≤ e0) ∧ ∀ j, e0 + j < epochs → ¬(T ≤ elapsed j ∧ 0 < e0 + j)))
    ∧ (e0 = 0 → 1 ≤ epochs → 1 ≤ (trainModel epochs T elapsed e0).count) := by
  constructor
  · by_cases hpre : e0 ≠ 0 ∧ epochs - 1 ≤ e0
    · rw [trainModel, if_pos hpre]
      simp only [TrainOutcome.isCompleted]
      constructor
      · intro hfalse; exact absurd hfalse (by simp)
      · intro h; exact absurd hpre h.1
    · rw [trainModel, if_neg hpre]
      rw [trainLoop_isCompleted_iff epochs T elapsed (epochs - e0) e0 0 (by omega)]
      constructor
      · intro H
        exact ⟨hpre, fun j hj => by have := H j hj; rwa [Nat.zero_add] at this⟩
      · intro H j hj
        have := H.2 j hj
        rwa [Nat.zero_add]
  · intro h0 h1
    subst h0
    rw [trainModel, if_neg (by simp)]
    obtain ⟨m, rfl⟩ : ∃ m, epochs = m + 1 := ⟨epochs - 1, by omega⟩
    show 1 ≤ (trainLoop (m + 1) T elapsed (m + 1 - 0) 0 0).count
    rw [Nat.sub_zero]
    simp only [trainLoop]
    rw [if_pos (by omega), if_neg (fun h => Nat.lt_irrefl 0 h.2)]
    exact trainLoop_count_le (m + 1) T elapsed m 1 1

/-- Witness for C6 (amended): a fresh run with 2 epochs and an untouched
budget completes normally with at least one epoch of progress. -/
theorem train_outcome_characterization_witness :
    (trainModel 2 100 zeroElapsed 0).isCompleted = true ∧
    1 ≤ (trainModel 2 100 zeroElapsed 0).count := by
  refine ⟨?_, (train_outcome_characterization 2 100 zeroElapsed 0).2 rfl (by norm_num)⟩
  exact (train_outcome_characterization 2 100 zeroElapsed 0).1.mpr
    ⟨by simp, fun j hj => by norm_num [zeroElapsed]⟩

/-- Counterexample to C10: a freshly constructed trainer (epoch 0) with
`params.epochs = 1` has its epoch counter at `params.epochs - 1`, yet
`train` does not raise: it runs epoch 0 to completion and returns
normally. -/
theorem train_fresh_epoch0_completes_cex :
    1 - 1 ≤ (0 : Nat) ∧ trainModel 1 1000000 zeroElapsed 0 = .completed 1 := by
  decide

/-- Claim C10 (amended): every trainer whose epoch counter is at least 1
and at least `params.epochs - 1` raises `TimeLimitsException` immediately,
before running any epoch, regardless of the budget; a trainer at epoch 0 is
exempt from the pre-loop check. -/
theorem train_resume_finished_raises (epochs : Nat) (T : Int) (elapsed : Nat → Int) (e0 : Nat)
    (h1 : 1 ≤ e0) (h2 : epochs - 1 ≤ e0) :
    trainModel epochs T elapsed e0 = .timeLimits 0 := by
  rw [trainModel, if_pos ⟨by omega, h2⟩]

/-- Witness for C10 (amended): resuming at epoch 4 of a 5-epoch run raises
immediately with zero epochs of progress despite a huge budget. -/
theorem train_resume_finished_raises_witness :
    trainModel 5 1000000 zeroElapsed 4 = .timeLimits 0 :=
  train_resume_finished_raises 5 1000000 zeroElapsed 4 (by norm_num) (by norm_num)

/-- Claim C1 (code bug): the checkpoint taken at epoch 1 stores the
post-update controller and RNG but the pre-increment epoch counter, so the
resumed run re-executes epoch 1 with already-updated weights: its
`controller.update` input at epoch 2 is `(3, 3)` while the uninterrupted
run's is `(2, 2)` — the model updates are not bit-identical. -/
theorem checkpoint_resume_diverges :
    (trainC c1Params c1Ext c1Init).snaps.lookup 1 = some c1Snap ∧
    c1Uninterrupted.updates = [(0, 0, 0), (1, 1, 1), (2, 2, 2)] ∧
    c1Resumed.updates = [(1, 2, 2), (2, 3, 3)] ∧
    c1Resumed.updates.lookup 2 ≠ c1Uninterrupted.updates.lookup 2 := by
  decide

/-- Claim C2 (code bug): with `batch_size = 2` and `action_steps = 2`, the
single `SensoryMotorCircle` shared through the list-aliasing
`[SensoryMotorCircle(...)] * batch_size` makes episode 0 resample at every
one of its steps and episode 1 never — `samples` records agent draws only
at `(t, episode) ∈ {(1,0), (2,0), (3,0)}` — and episode 1's first recorded
action is 10 (drawn under episode 0's policy) where a draw under its own
policy would give 20. -/
theorem run_episodes_shared_circle_cex :
    (run_episodes cexParams cexExtC2 2 zeroBuf zeroBuf zeroBuf zeroBuf cexPol zeroBuf
        liveStates).samples = [(1, 0), (2, 0), (3, 0)] ∧
    (run_episodes cexParams cexExtC2 2 zeroBuf zeroBuf zeroBuf zeroBuf cexPol zeroBuf
        liveStates).batch_v 1 1 = 10 ∧
    cexExtC2.agentStep (cexPol 1) inState = 20 := by
  decide

/-- Counterexample to C5: episode 0 terminates at step 1 with cumulative
match 0, yet after the window at step 4 its cumulative match is 2, its
running max 3 and its step-3 match flag set: the vectorized match
accounting at lines 204-216 runs over terminated episodes too. -/
theorem terminated_accounting_changes_cex :
    (runSteps cexParams cexExtC5 1 init0 1).states 0 = none ∧
    (runSteps cexParams cexExtC5 1 init0 1).cum_match 0 = 0 ∧
    (runSteps cexParams cexExtC5 1 init0 4).cum_match 0 = 2 ∧
    (runSteps cexParams cexExtC5 1 init0 4).max_match 0 = 3 ∧
    (runSteps cexParams cexExtC5 1 init0 4).matchFlags 0 3 = true := by
  decide

/-- The per-episode stepping never touches the match-accounting arrays nor
the goal/policy buffers. -/
theorem stepEpisode_frame (P : SMParams) (ext : SMExt) (t e' : Nat) (s : RunState) :
    (stepEpisode P ext t e' s).cum_match = s.cum_match ∧
    (stepEpisode P ext t e' s).max_match = s.max_match ∧
    (stepEpisode P ext t e' s).matchFlags = s.matchFlags ∧
    (stepEpisode P ext t e' s).match_value = s.match_value ∧
    (stepEpisode P ext t e' s).batch_g = s.batch_g ∧
    (stepEpisode P ext t e' s).batch_a = s.batch_a := by
  rcases hst : s.states e' with _ | st
  · simp [stepEpisode, hst]
  · simp only [stepEpisode, hst]
    split
    · exact ⟨rfl, rfl, rfl, rfl, rfl, rfl⟩
    · split <;> exact ⟨rfl, rfl, rfl, rfl, rfl, rfl⟩

/-- Stepping episode `e'` does not touch the state, length or sensor rows
of a different episode `e`. -/
theorem stepEpisode_ne (P : SMParams) (ext : SMExt) (t : Nat) {e' e : Nat} (h : e' ≠ e)
    (s : RunState) :
    (stepEpisode P ext t e' s).states e = s.states e ∧
    (stepEpisode P ext t e' s).episode_len e = s.episode_len e ∧
    ∀ j, (stepEpisode P ext t e' s).batch_v e j = s.batch_v e j ∧
         (stepEpisode P ext t e' s).batch_ss e j = s.batch_ss e j ∧
         (stepEpisode P ext t e' s).batch_p e j = s.batch_p e j := by
  have hne : e ≠ e' := Ne.symm h
  rcases hst : s.states e' with _ | st
  · simp [stepEpisode, hst]
  · simp only [stepEpisode, hst]
    split
    · exact ⟨rfl, rfl, fun j => ⟨rfl, rfl, rfl⟩⟩
    · split <;> refine ⟨?_, ?_, fun j => ⟨?_, ?_, ?_⟩⟩ <;> simp [upd1, upd2, hne]

/-- A terminated episode is a no-op target for every stepping call. -/
theorem stepEpisode_dead (P : SMParams) (ext : SMExt) (t e'' e : Nat) (s : RunState)
    (hd : s.states e = none) :
    (stepEpisode P ext t e'' s).states e = none ∧
    (stepEpisode P ext t e'' s).episode_len e = s.episode_len e ∧
    ∀ j, (stepEpisode P ext t e'' s).batch_v e j = s.batch_v e j ∧
         (stepEpisode P ext t e'' s).batch_ss e j = s.batch_ss e j ∧
         (stepEpisode P ext t e'' s).batch_p e j = s.batch_p e j := by
  by_cases he : e'' = e
  · subst he
    simp [stepEpisode, hd]
  · obtain ⟨h1, h2, h3⟩ := stepEpisode_ne P ext t he s
    exact ⟨h1.trans hd, h2, h3⟩

/-- Stepping at timestep `t` writes sensor rows only in column `t`. -/
theorem stepEpisode_col (P : SMParams) (ext : SMExt) (t e' e j : Nat) (s : RunState)
    (hj : j ≠ t) :
    (stepEpisode P ext t e' s).batch_v e j = s.batch_v e j ∧
    (stepEpisode P ext t e' s).batch_ss e j = s.batch_ss e j ∧
    (stepEpisode P ext t e' s).batch_p e j = s.batch_p e j := by
  rcases hst : s.states e' with _ | st
  · simp [stepEpisode, hst]
  · simp only [stepEpisode, hst]
    split
    · exact ⟨rfl, rfl, rfl⟩
    · split
      · exact ⟨rfl, rfl, rfl⟩
      · refine ⟨?_, ?_, ?_⟩ <;> simp [upd2, hj]

/-- The window block touches only `match_value`, `matchFlags`, `cum_match`
and `max_match`. -/
theorem windowAccount_frame (P : SMParams) (ext : SMExt) (t : Nat) (s : RunState) :
    (windowAccount P ext t s).states = s.states ∧
    (windowAccount P ext t s).episode_len = s.episode_len ∧
    (windowAccount P ext t s).batch_v = s.batch_v ∧
    (windowAccount P ext t s).batch_ss = s.batch_ss ∧
    (windowAccount P ext t s).batch_p = s.batch_p ∧
    (windowAccount P ext t s).batch_g = s.batch_g ∧
    (windowAccount P ext t s).batch_a = s.batch_a ∧
    (windowAccount P ext t s).smc = s.smc ∧
    (windowAccount P ext t s).samples = s.samples := by
  have key : ∀ (l : List Nat) (u : RunState),
      (u.states = s.states ∧ u.episode_len = s.episode_len ∧ u.batch_v = s.batch_v ∧
        u.batch_ss = s.batch_ss ∧ u.batch_p = s.batch_p ∧ u.batch_g = s.batch_g ∧
        u.batch_a = s.batch_a ∧ u.smc = s.smc ∧ u.samples = s.samples) →
      (((l.foldl (fun acc k => matchEventStep P (t - P.action_steps + k) acc) u)).states = s.states ∧
        ((l.foldl (fun acc k => matchEventStep P (t - P.action_steps + k) acc) u)).episode_len = s.episode_len ∧
        ((l.foldl (fun acc k => matchEventStep P (t - P.action_steps + k) acc) u)).batch_v = s.batch_v ∧
        ((l.foldl (fun acc k => matchEventStep P (t - P.action_steps + k) acc) u)).batch_ss = s.batch_ss ∧
        ((l.foldl (fun acc k => matchEventStep P (t - P.action_steps + k) acc) u)).batch_p = s.batch_p ∧
        ((l.foldl (fun acc k => matchEventStep P (t - P.action_steps + k) acc) u)).batch_g = s.batch_g ∧
        ((l.foldl (fun acc k => matchEventStep P (t - P.action_steps + k) acc) u)).batch_a = s.batch_a ∧
        ((l.foldl (fun acc k => matchEventStep P (t - P.action_steps + k) acc) u)).smc = s.smc ∧
        ((l.foldl (fun acc k => matchEventStep P (t - P.action_steps + k) acc) u)).samples = s.samples) :=
    fun l u hu =>
      foldl_invariant (fun acc k => matchEventStep P (t - P.action_steps + k) acc)
        (fun v => v.states = s.states ∧ v.episode_len = s.episode_len ∧ v.batch_v = s.batch_v ∧
          v.batch_ss = s.batch_ss ∧ v.batch_p = s.batch_p ∧ v.batch_g = s.batch_g ∧
          v.batch_a = s.batch_a ∧ v.smc = s.smc ∧ v.samples = s.samples)
        (fun v b hv => hv) l u hu
  unfold windowAccount
  dsimp only
  split
  · exact key _ _ ⟨rfl, rfl, rfl, rfl, rfl, rfl, rfl, rfl, rfl⟩
  · exact ⟨rfl, rfl, rfl, rfl, rfl, rfl, rfl, rfl, rfl⟩

/-- The stepping of one episode leaves the cumulative counters untouched. -/
theorem stepEpisode_cum (P : SMParams) (ext : SMExt) (t e' : Nat) (s : RunState) :
    (stepEpisode P ext t e' s).cum_match = s.cum_match :=
  (stepEpisode_frame P ext t e' s).1

/-- The stepping of one episode leaves the goal buffer untouched. -/
theorem stepEpisode_bg (P : SMParams) (ext : SMExt) (t e' : Nat) (s : RunState) :
    (stepEpisode P ext t e' s).batch_g = s.batch_g :=
  (stepEpisode_frame P ext t e' s).2.2.2.2.1

/-- After the clamp of line 216, every cumulative counter is at most the
stop threshold. -/
theorem clampCum_le (P : SMParams) (s : RunState) (e : Nat) :
    (clampCum P s).cum_match e ≤ P.cum_match_stop_th := by
  simp only [clampCum]
  split
  · exact le_refl _
  · exact le_of_not_lt (by assumption)

/-- The window block keeps the cumulative counters at or below the stop
threshold. -/
theorem windowAccount_cum_le (P : SMParams) (ext : SMExt) (t : Nat) (s : RunState)
    (hs : ∀ e, s.cum_match e ≤ P.cum_match_stop_th) :
    ∀ e, (windowAccount P ext t s).cum_match e ≤ P.cum_match_stop_th := by
  intro e
  unfold windowAccount
  dsimp only
  split
  · exact clampCum_le P _ e
  · exact hs e

/-- One outer-loop iteration keeps the cumulative counters at or below the
stop threshold. -/
theorem stepT_cum_le (P : SMParams) (ext : SMExt) (B t : Nat) (s : RunState)
    (hs : ∀ e, s.cum_match e ≤ P.cum_match_stop_th) :
    ∀ e, (stepT P ext B t s).cum_match e ≤ P.cum_match_stop_th := by
  have h1 : ∀ e,
      ((if t < P.stime then (List.range B).foldl (fun acc e => stepEpisode P ext t e acc) s
        else s)).cum_match e ≤ P.cum_match_stop_th := by
    split
    · intro e
      have hfold : ((List.range B).foldl (fun acc e => stepEpisode P ext t e acc) s).cum_match
          = s.cum_match :=
        foldl_invariant (fun acc e => stepEpisode P ext t e acc)
          (fun u => u.cum_match = s.cum_match)
          (fun u b hu => (stepEpisode_cum P ext t b u).trans hu) _ s rfl
      rw [hfold]; exact hs e
    · exact hs
  unfold stepT
  dsimp only
  split
  · exact windowAccount_cum_le P ext t _ h1
  · exact h1

/-- One outer-loop iteration preserves the goal buffer. -/
theorem stepT_bg (P : SMParams) (ext : SMExt) (B t : Nat) (s : RunState) :
    (stepT P ext B t s).batch_g = s.batch_g := by
  have h1 : ((if t < P.stime then (List.range B).foldl (fun acc e => stepEpisode P ext t e acc) s
      else s)).batch_g = s.batch_g := by
    split
    · exact foldl_invariant (fun acc e => stepEpisode P ext t e acc)
        (fun u => u.batch_g = s.batch_g)
        (fun u b hu => (stepEpisode_bg P ext t b u).trans hu) _ s rfl
    · rfl
  unfold stepT
  dsimp only
  split
  · exact ((windowAccount_frame P ext t _).2.2.2.2.2.1).trans h1
  · exact h1

/-- Unrolling the last outer-loop iteration. -/
theorem runSteps_succ (P : SMParams) (ext : SMExt) (B : Nat) (s : RunState) (n : Nat) :
    runSteps P ext B s (n + 1) = stepT P ext B (n + 1) (runSteps P ext B s n) := by
  unfold runSteps
  rw [List.range_succ, List.foldl_append, List.foldl_cons, List.foldl_nil]

/-- The goal buffer is never written during a batch run: goals never change
mid-episode. -/
theorem runSteps_bg (P : SMParams) (ext : SMExt) (B : Nat) (s0 : RunState) :
    ∀ n, (runSteps P ext B s0 n).batch_g = s0.batch_g := by
  intro n
  induction n with
  | zero => rfl
  | succ k ih => rw [runSteps_succ]; exact (stepT_bg P ext B (k + 1) _).trans ih

/-- One outer-loop iteration is a no-op on a terminated episode's state,
length and sensor rows. -/
theorem stepT_dead (P : SMParams) (ext : SMExt) (B t e : Nat) (s : RunState)
    (hd : s.states e = none) :
    (stepT P ext B t s).states e = none ∧
    (stepT P ext B t s).episode_len e = s.episode_len e ∧
    ∀ j, (stepT P ext B t s).batch_v e j = s.batch_v e j ∧
         (stepT P ext B t s).batch_ss e j = s.batch_ss e j ∧
         (stepT P ext B t s).batch_p e j = s.batch_p e j := by
  have h1 : ((if t < P.stime then (List.range B).foldl (fun acc e => stepEpisode P ext t e acc) s
        else s)).states e = none ∧
      ((if t < P.stime then (List.range B).foldl (fun acc e => stepEpisode P ext t e acc) s
        else s)).episode_len e = s.episode_len e ∧
      ∀ j, ((if t < P.stime then (List.range B).foldl (fun acc e => stepEpisode P ext t e acc) s
          else s)).batch_v e j = s.batch_v e j ∧
        ((if t < P.stime then (List.range B).foldl (fun acc e => stepEpisode P ext t e acc) s
          else s)).batch_ss e j = s.batch_ss e j ∧
        ((if t < P.stime then (List.range B).foldl (fun acc e => stepEpisode P ext t e acc) s
          else s)).batch_p e j = s.batch_p e j := by
    split
    · exact foldl_invariant (fun acc e => stepEpisode P ext t e acc)
        (fun u => u.states e = none ∧ u.episode_len e = s.episode_len e ∧
          ∀ j, u.batch_v e j = s.batch_v e j ∧ u.batch_ss e j = s.batch_ss e j ∧
            u.batch_p e j = s.batch_p e j)
        (fun u b hu =>
          let hdb := stepEpisode_dead P ext t b e u hu.1
          ⟨hdb.1, hdb.2.1.trans hu.2.1, fun j =>
            ⟨(hdb.2.2 j).1.trans ((hu.2.2 j).1), (hdb.2.2 j).2.1.trans ((hu.2.2 j).2.1),
             (hdb.2.2 j).2.2.trans ((hu.2.2 j).2.2)⟩⟩)
        _ s ⟨hd, rfl, fun j => ⟨rfl, rfl, rfl⟩⟩
    · exact ⟨hd, rfl, fun j => ⟨rfl, rfl, rfl⟩⟩
  unfold stepT
  dsimp only
  split
  · obtain ⟨w1, w2, w3, w4, w5, -⟩ := windowAccount_frame P ext t
      (if t < P.stime then (List.range B).foldl (fun acc e => stepEpisode P ext t e acc) s else s)
    exact ⟨(congrFun w1 e).trans h1.1, (congrFun w2 e).trans h1.2.1,
      fun j => ⟨(congrFun (congrFun w3 e) j).trans ((h1.2.2 j).1),
        (congrFun (congrFun w4 e) j).trans ((h1.2.2 j).2.1),
        (congrFun (congrFun w5 e) j).trans ((h1.2.2 j).2.2)⟩⟩
  · exact h1

/-- One outer-loop iteration at timestep `t` writes sensor columns only at
index `t`. -/
theorem stepT_col (P : SMParams) (ext : SMExt) (B t e j : Nat) (s : RunState) (hj : j ≠ t) :
    (stepT P ext B t s).batch_v e j = s.batch_v e j ∧
    (stepT P ext B t s).batch_ss e j = s.batch_ss e j ∧
    (stepT P ext B t s).batch_p e j = s.batch_p e j := by
  have h1 : ((if t < P.stime then (List.range B).foldl (fun acc e => stepEpisode P ext t e acc) s
        else s)).batch_v e j = s.batch_v e j ∧
      ((if t < P.stime then (List.range B).foldl (fun acc e => stepEpisode P ext t e acc) s
        else s)).batch_ss e j = s.batch_ss e j ∧
      ((if t < P.stime then (List.range B).foldl (fun acc e => stepEpisode P ext t e acc) s
        else s)).batch_p e j = s.batch_p e j := by
    split
    · exact foldl_invariant (fun acc e => stepEpisode P ext t e acc)
        (fun u => u.batch_v e j = s.batch_v e j ∧ u.batch_ss e j = s.batch_ss e j ∧
          u.batch_p e j = s.batch_p e j)
        (fun u b hu =>
          let hc := stepEpisode_col P ext t b e j u hj
          ⟨hc.1.trans hu.1, hc.2.1.trans hu.2.1, hc.2.2.trans hu.2.2⟩)
        _ s ⟨rfl, rfl, rfl⟩
    · exact ⟨rfl, rfl, rfl⟩
  unfold stepT
  dsimp only
  split
  · obtain ⟨-, -, w3, w4, w5, -⟩ := windowAccount_frame P ext t
      (if t < P.stime then (List.range B).foldl (fun acc e => stepEpisode P ext t e acc) s else s)
    exact ⟨(congrFun (congrFun w3 e) j).trans h1.1,
      (congrFun (congrFun w4 e) j).trans h1.2.1,
      (congrFun (congrFun w5 e) j).trans h1.2.2⟩
  · exact h1

/-- Once an episode's state is the terminated sentinel, every later
timestep leaves its state, length and sensor rows unchanged. -/
theorem runSteps_dead_from (P : SMParams) (ext : SMExt) (B : Nat) (s0 : RunState) (m e : Nat)
    (hd : (runSteps P ext B s0 m).states e = none) :
    ∀ n, m ≤ n →
      (runSteps P ext B s0 n).states e = none ∧
      (runSteps P ext B s0 n).episode_len e = (runSteps P ext B s0 m).episode_len e ∧
      ∀ j, (runSteps P ext B s0 n).batch_v e j = (runSteps P ext B s0 m).batch_v e j ∧
           (runSteps P ext B s0 n).batch_ss e j = (runSteps P ext B s0 m).batch_ss e j ∧
           (runSteps P ext B s0 n).batch_p e j = (runSteps P ext B s0 m).batch_p e j := by
  intro n hn
  induction n, hn using Nat.le_induction with
  | base => exact ⟨hd, rfl, fun j => ⟨rfl, rfl, rfl⟩⟩
  | succ k hk ih =>
    rw [runSteps_succ]
    obtain ⟨h1, h2, h3⟩ := stepT_dead P ext B (k + 1) e (runSteps P ext B s0 k) ih.1
    exact ⟨h1, h2.trans ih.2.1, fun j =>
      ⟨(h3 j).1.trans ((ih.2.2 j).1), (h3 j).2.1.trans ((ih.2.2 j).2.1),
       (h3 j).2.2.trans ((ih.2.2 j).2.2)⟩⟩

/-- After `n` timesteps, sensor columns beyond `n` still hold their initial
values. -/
theorem runSteps_col (P : SMParams) (ext : SMExt) (B : Nat) (s0 : RunState) :
    ∀ n e j, n < j →
      (runSteps P ext B s0 n).batch_v e j = s0.batch_v e j ∧
      (runSteps P ext B s0 n).batch_ss e j = s0.batch_ss e j ∧
      (runSteps P ext B s0 n).batch_p e j = s0.batch_p e j := by
  intro n
  induction n with
  | zero => intro e j _; exact ⟨rfl, rfl, rfl⟩
  | succ k ih =>
    intro e j hj
    rw [runSteps_succ]
    have hc := stepT_col P ext B (k + 1) e j (runSteps P ext B s0 k) (by omega)
    have hi := ih e j (by omega)
    exact ⟨hc.1.trans hi.1, hc.2.1.trans hi.2.1, hc.2.2.trans hi.2.2⟩

/-- If an episode goes from live to terminated inside its own stepping call
at timestep `t`, its length is frozen at `t` and its sensor rows are not
written at that call. -/
theorem stepEpisode_self_flip (P : SMParams) (ext : SMExt) (t e : Nat) (s : RunState)
    (st : EnvState) (hs : s.states e = some st)
    (hn : (stepEpisode P ext t e s).states e = none) :
    (stepEpisode P ext t e s).episode_len e = t ∧
    ∀ j, (stepEpisode P ext t e s).batch_v e j = s.batch_v e j ∧
         (stepEpisode P ext t e s).batch_ss e j = s.batch_ss e j ∧
         (stepEpisode P ext t e s).batch_p e j = s.batch_p e j := by
  simp only [stepEpisode, hs] at hn ⊢
  split_ifs at hn ⊢ with h1 h2 h3
  all_goals first
    | (rw [hs] at hn; exact absurd hn (by simp))
    | (exact ⟨by simp [upd1], fun j => ⟨rfl, rfl, rfl⟩⟩)
    | (exact absurd hn (by simp [upd1]))

/-- If an episode goes from live to terminated during the per-episode fold
of one timestep, its length is frozen at `t` and its sensor rows keep the
values they had when the timestep began. -/
theorem foldEpisodes_flip (P : SMParams) (ext : SMExt) (t e : Nat) :
    ∀ l : List Nat, l.Nodup → ∀ (s : RunState) (st : EnvState),
      s.states e = some st →
      (l.foldl (fun acc b => stepEpisode P ext t b acc) s).states e = none →
      (l.foldl (fun acc b => stepEpisode P ext t b acc) s).episode_len e = t ∧
      ∀ j, (l.foldl (fun acc b => stepEpisode P ext t b acc) s).batch_v e j = s.batch_v e j ∧
           (l.foldl (fun acc b => stepEpisode P ext t b acc) s).batch_ss e j = s.batch_ss e j ∧
           (l.foldl (fun acc b => stepEpisode P ext t b acc) s).batch_p e j = s.batch_p e j := by
  intro l
  induction l with
  | nil =>
    intro _ s st hs hnone
    rw [List.foldl_nil] at hnone
    rw [hs] at hnone
    exact absurd hnone (by simp)
  | cons b tl ih =>
    intro hnd s st hs hnone
    rw [List.foldl_cons] at hnone ⊢
    by_cases hbe : b = e
    · subst hbe
      rcases hres : (stepEpisode P ext t b s).states b with _ | st'
      · obtain ⟨hlen, hrows⟩ := stepEpisode_self_flip P ext t b s st hs hres
        have hQ := foldl_invariant (fun acc c => stepEpisode P ext t c acc)
          (fun u => u.states b = none ∧ u.episode_len b = t ∧
            ∀ j, u.batch_v b j = s.batch_v b j ∧ u.batch_ss b j = s.batch_ss b j ∧
              u.batch_p b j = s.batch_p b j)
          (fun u c hu =>
            let hdc := stepEpisode_dead P ext t c b u hu.1
            ⟨hdc.1, hdc.2.1.trans hu.2.1, fun j =>
              ⟨(hdc.2.2 j).1.trans ((hu.2.2 j).1), (hdc.2.2 j).2.1.trans ((hu.2.2 j).2.1),
               (hdc.2.2 j).2.2.trans ((hu.2.2 j).2.2)⟩⟩)
          tl (stepEpisode P ext t b s) ⟨hres, hlen, hrows⟩
        exact ⟨hQ.2.1, hQ.2.2⟩
      · have hb_notin : b ∉ tl := (List.nodup_cons.mp hnd).1
        have halive := foldl_invariant_mem (fun acc c => stepEpisode P ext t c acc)
          (fun u => u.states b = some st')
          tl
          (fun u c hc hu => by
            have hne : c ≠ b := fun hcb => hb_notin (hcb ▸ hc)
            exact ((stepEpisode_ne P ext t hne u).1).trans hu)
          (stepEpisode P ext t b s) hres
        have halive' : ((tl.foldl (fun acc b => stepEpisode P ext t b acc)
            (stepEpisode P ext t b s))).states b = some st' := halive
        rw [hnone] at halive'
        exact absurd halive' (by simp)
    · obtain ⟨h1, h2, h3⟩ := stepEpisode_ne P ext t hbe s
      have hs' : (stepEpisode P ext t b s).states e = some st := h1.trans hs
      obtain ⟨hlen, hrows⟩ := ih (List.nodup_cons.mp hnd).2 (stepEpisode P ext t b s) st hs' hnone
      exact ⟨hlen, fun j =>
        ⟨(hrows j).1.trans ((h3 j).1), (hrows j).2.1.trans ((h3 j).2.1),
         (hrows j).2.2.trans ((h3 j).2.2)⟩⟩

/-- If an episode goes from live to terminated during outer-loop iteration
`t`, its length is frozen at `t` and its sensor rows keep the values they
had when the iteration began. -/
theorem stepT_flip (P : SMParams) (ext : SMExt) (B t e : Nat) (s : RunState) (st : EnvState)
    (hs : s.states e = some st) (hn : (stepT P ext B t s).states e = none) :
    (stepT P ext B t s).episode_len e = t ∧
    ∀ j, (stepT P ext B t s).batch_v e j = s.batch_v e j ∧
         (stepT P ext B t s).batch_ss e j = s.batch_ss e j ∧
         (stepT P ext B t s).batch_p e j = s.batch_p e j := by
  unfold stepT at hn ⊢
  dsimp only at hn ⊢
  by_cases hw : t % P.action_steps = 0 ∨ t = P.stime
  · rw [if_pos hw] at hn ⊢
    obtain ⟨w1, w2, w3, w4, w5, -⟩ := windowAccount_frame P ext t
      (if t < P.stime then (List.range B).foldl (fun acc e => stepEpisode P ext t e acc) s else s)
    have hn1 : ((if t < P.stime then
        (List.range B).foldl (fun acc e => stepEpisode P ext t e acc) s else s)).states e = none :=
      (congrFun w1 e).symm.trans hn
    have hflip : ((if t < P.stime then
          (List.range B).foldl (fun acc e => stepEpisode P ext t e acc) s else s)).episode_len e = t ∧
        ∀ j, ((if t < P.stime then
            (List.range B).foldl (fun acc e => stepEpisode P ext t e acc) s else s)).batch_v e j = s.batch_v e j ∧
          ((if t < P.stime then
            (List.range B).foldl (fun acc e => stepEpisode P ext t e acc) s else s)).batch_ss e j = s.batch_ss e j ∧
          ((if t < P.stime then
            (List.range B).foldl (fun acc e => stepEpisode P ext t e acc) s else s)).batch_p e j = s.batch_p e j := by
      by_cases hts : t < P.stime
      · rw [if_pos hts] at hn1 ⊢
        exact foldEpisodes_flip P ext t e (List.range B) (List.nodup_range B) s st hs hn1
      · rw [if_neg hts] at hn1
        rw [hs] at hn1; exact absurd hn1 (by simp)
    exact ⟨(congrFun w2 e).trans hflip.1, fun j =>
      ⟨(congrFun (congrFun w3 e) j).trans ((hflip.2 j).1),
       (congrFun (congrFun w4 e) j).trans ((hflip.2 j).2.1),
       (congrFun (congrFun w5 e) j).trans ((hflip.2 j).2.2)⟩⟩
  · rw [if_neg hw] at hn ⊢
    by_cases hts : t < P.stime
    · rw [if_pos hts] at hn ⊢
      exact foldEpisodes_flip P ext t e (List.range B) (List.nodup_range B) s st hs hn
    · rw [if_neg hts] at hn
      rw [hs] at hn; exact absurd hn (by simp)

/-- Claim C3: throughout `run_episodes` — after every timestep, hence at
every window boundary — and in the returned counters, every episode's
cumulative match is at most `params.cum_match_stop_th`. -/
theorem cum_match_saturates (P : SMParams) (ext : SMExt) (B : Nat)
    (bv bss bp bg : Nat → Nat → Int) (pol : Nat → Int) (mval : Nat → Nat → Int)
    (states : Nat → Option EnvState) (hth : 0 ≤ P.cum_match_stop_th) :
    (∀ n e, (runSteps P ext B (mkRunState bv bss bp bg pol mval states) n).cum_match e
        ≤ P.cum_match_stop_th)
    ∧ ∀ e, (run_episodes P ext B bv bss bp bg pol mval states).cum_match e
        ≤ P.cum_match_stop_th := by
  have key : ∀ n e, (runSteps P ext B (mkRunState bv bss bp bg pol mval states) n).cum_match e
      ≤ P.cum_match_stop_th := by
    intro n
    induction n with
    | zero => intro e; exact hth
    | succ k ih => intro e; rw [runSteps_succ]; exact stepT_cum_le P ext B (k + 1) _ ih e
  exact ⟨key, fun e => key P.stime e⟩

/-- Witness for C3 at a concrete run that terminates and accumulates
events: the returned counter still respects the threshold. -/
theorem cum_match_saturates_witness :
    (run_episodes cexParams cexExtC5 1 zeroBuf zeroBuf zeroBuf zeroBuf zeroPol zeroBuf
      liveStates).cum_match 0 ≤ cexParams.cum_match_stop_th :=
  (cum_match_saturates cexParams cexExtC5 1 zeroBuf zeroBuf zeroBuf zeroBuf zeroPol zeroBuf
    liveStates (by norm_num [cexParams])).2 0

/-- Claim C4: if an episode's object leaves the task region at timestep
`m + 1` (live after `m` steps, terminated after `m + 1`), then from that
point on its recorded length equals `m + 1` and its sensor rows at columns
`≥ m + 1` still hold their initial values — no buffer writes occur for that
episode at any step past the exit. -/
theorem taskspace_exit_freezes_episode (P : SMParams) (ext : SMExt) (B : Nat) (s0 : RunState)
    (m e : Nat) (st : EnvState)
    (hlive : (runSteps P ext B s0 m).states e = some st)
    (hdead : (runSteps P ext B s0 (m + 1)).states e = none) :
    ∀ n, m + 1 ≤ n →
      (runSteps P ext B s0 n).episode_len e = m + 1 ∧
      (runSteps P ext B s0 n).states e = none ∧
      ∀ j, m + 1 ≤ j →
        (runSteps P ext B s0 n).batch_v e j = s0.batch_v e j ∧
        (runSteps P ext B s0 n).batch_ss e j = s0.batch_ss e j ∧
        (runSteps P ext B s0 n).batch_p e j = s0.batch_p e j := by
  have hsucc := runSteps_succ P ext B s0 m
  have hdead' : (stepT P ext B (m + 1) (runSteps P ext B s0 m)).states e = none := by
    rw [← hsucc]; exact hdead
  obtain ⟨hlen, hrows⟩ := stepT_flip P ext B (m + 1) e (runSteps P ext B s0 m) st hlive hdead'
  intro n hn
  have hpers := runSteps_dead_from P ext B s0 (m + 1) e hdead n hn
  refine ⟨?_, hpers.1, ?_⟩
  · rw [hpers.2.1, hsucc, hlen]
  · intro j hj
    have hcol := runSteps_col P ext B s0 m e j (by omega)
    refine ⟨?_, ?_, ?_⟩
    · rw [(hpers.2.2 j).1, hsucc, (hrows j).1, hcol.1]
    · rw [(hpers.2.2 j).2.1, hsucc, (hrows j).2.1, hcol.2.1]
    · rw [(hpers.2.2 j).2.2, hsucc, (hrows j).2.2, hcol.2.2]

/-- Witness for C4: in the concrete run where episode 0 exits the task
space at step 1, the final recorded length is 1 and column 2 of its visual
row still holds its initial value 0. -/
theorem taskspace_exit_freezes_episode_witness :
    (runSteps cexParams cexExtC5 1 init0 4).episode_len 0 = 1 ∧
    (runSteps cexParams cexExtC5 1 init0 4).batch_v 0 2 = 0 := by
  have h := taskspace_exit_freezes_episode cexParams cexExtC5 1 init0 0 0 inState
    (by decide) (by decide) 4 (by norm_num)
  exact ⟨h.1, ((h.2.2 2 (by norm_num)).1).trans (by decide)⟩

/-- Claim C5 (amended): a terminated episode is never stepped again — its
state stays the sentinel and its sensor buffer rows and recorded length
retain their last-written values for every later timestep (its match
accounting, however, may still change: see the counterexample). -/
theorem terminated_episode_rows_frozen (P : SMParams) (ext : SMExt) (B : Nat) (s0 : RunState)
    (m e : Nat) (hd : (runSteps P ext B s0 m).states e = none) :
    ∀ n, m ≤ n →
      (runSteps P ext B s0 n).states e = none ∧
      (runSteps P ext B s0 n).episode_len e = (runSteps P ext B s0 m).episode_len e ∧
      ∀ j, (runSteps P ext B s0 n).batch_v e j = (runSteps P ext B s0 m).batch_v e j ∧
           (runSteps P ext B s0 n).batch_ss e j = (runSteps P ext B s0 m).batch_ss e j ∧
           (runSteps P ext B s0 n).batch_p e j = (runSteps P ext B s0 m).batch_p e j :=
  runSteps_dead_from P ext B s0 m e hd

/-- Witness for C5 (amended): the concrete terminated episode keeps its
length and visual row from step 1 through step 4. -/
theorem terminated_episode_rows_frozen_witness :
    (runSteps cexParams cexExtC5 1 init0 4).states 0 = none ∧
    (runSteps cexParams cexExtC5 1 init0 4).episode_len 0
      = (runSteps cexParams cexExtC5 1 init0 1).episode_len 0 ∧
    (runSteps cexParams cexExtC5 1 init0 4).batch_v 0 3
      = (runSteps cexParams cexExtC5 1 init0 1).batch_v 0 3 := by
  have h := terminated_episode_rows_frozen cexParams cexExtC5 1 init0 1 0 (by decide) 4
    (by norm_num)
  exact ⟨h.1, h.2.1, (h.2.2 3).1⟩

/-- Claim C7: the goal used by an episode at epoch `E+1` is freshly set to
that episode's own initial visual representation iff its environment was
freshly reset at `E+1` or its cumulative match at epoch `E` reached the
stop threshold (otherwise it keeps its previous goal); and the goal buffer
is never written during a batch run, so goals never change mid-episode. -/
theorem goal_resampling_iff (P : SMParams) (extT : TrainExt) (ext : SMExt)
    (s : TrainState) (e : Nat) (B n : Nat) (s0 : RunState) :
    (goalsAfterSample extT (prepareEpisodes P extT (epochStepG P extT s)) e =
      (if ((epochStepG P extT s).states e = none ∨ (s.epoch + 1) % P.env_reset_freq = 0)
          ∨ P.cum_match_stop_th ≤ epochCum P extT s e
       then extT.vr0 (s.epoch + 1) (prepareEpisodes P extT (epochStepG P extT s)).states e
       else (epochStepG P extT s).goals e))
    ∧ (runSteps P ext B s0 n).batch_g = s0.batch_g := by
  constructor
  · have hepoch : (epochStepG P extT s).epoch = s.epoch + 1 := rfl
    have hmask : (epochStepG P extT s).reset_goal_mask e
        = decide (P.cum_match_stop_th ≤ epochCum P extT s e) := rfl
    by_cases hr : (epochStepG P extT s).states e = none ∨ (s.epoch + 1) % P.env_reset_freq = 0
    · simp [goalsAfterSample, prepareEpisodes, hepoch, hr]
    · by_cases hc : P.cum_match_stop_th ≤ epochCum P extT s e
      · simp [goalsAfterSample, prepareEpisodes, hepoch, hmask, hr, hc]
      · simp [goalsAfterSample, prepareEpisodes, hepoch, hmask, hr, hc]
  · exact runSteps_bg P ext B s0 n

end SMMain
